import Mathlib

/-!
Verification of the event-dispatch contract of `typed-event-target`.

The repository's single source file, `src/TypedEventTarget.ts`, is a
compile-time typing shim: it re-exports the host `EventTarget` class
unchanged (`export const TypedEventTarget = EventTarget as any`) and only
narrows its TypeScript types. The runtime dispatch primitive itself
(listener registration, the capture/passive/once options, the dispatch
return value) is host-provided and is not present under `src/`; it is
modelled here from the specification's EventHub contract (spec §3–§4).
Callbacks are modelled semantically: each callback identity is mapped by a
`Behavior` to the list of effects it performs when invoked (requesting
cancellation, mutating the registry, raising an error).
-/

namespace EventTargetModel

/-- Modelled from the spec: the recognized listener options `capture`,
`passive`, `once` of `AddEventListenerOptions` (spec §3/§4.1, the host
`AddEventListenerOptions` is not under `src/`). -/
structure ListenerOptions where
  capture : Bool
  passive : Bool
  once : Bool
deriving DecidableEq

/-- Modelled from the spec: the `options?: boolean | AddEventListenerOptions`
argument shape — a bare boolean, a full options record, or absent. -/
inductive OptionsArg where
  | boolArg (b : Bool)
  | optsArg (o : ListenerOptions)
  | absent
deriving DecidableEq

/-- Modelled from the spec: option normalization — a bare boolean is
interpreted as `capture` alone, each missing flag defaults to `false`. -/
def OptionsArg.toOptions : OptionsArg → ListenerOptions
  | .boolArg b => ⟨b, false, false⟩
  | .optsArg o => o
  | .absent => ⟨false, false, false⟩

/-- Modelled from the spec: one registered listener entry (spec §3
ListenerEntry). The callback is an opaque identity (a `Nat`); its behavior
when invoked is supplied separately by a `Behavior`. -/
structure ListenerEntry where
  eventName : String
  callback : Nat
  capture : Bool
  passive : Bool
  once : Bool
deriving DecidableEq

/-- Two entries are the same listener when they agree on the
`(eventName, callback, capture)` identity triple (spec §3, src lines 62–63). -/
def sameTriple (a b : ListenerEntry) : Bool :=
  a.eventName == b.eventName && a.callback == b.callback && a.capture == b.capture

/-- Whether some entry of the registry matches `e`'s identity triple. -/
def hasTriple (reg : List ListenerEntry) (e : ListenerEntry) : Bool :=
  reg.any (sameTriple e)

/-- Number of registry entries matching `e`'s identity triple. -/
def countTriple (reg : List ListenerEntry) (e : ListenerEntry) : Nat :=
  reg.countP (fun x => sameTriple e x)

/-- A registry is well formed when no two entries share an identity triple;
`addEventListener` preserves this. -/
def wfb : List ListenerEntry → Bool
  | [] => true
  | e :: rest => !hasTriple rest e && wfb rest

/-- Modelled from the spec: `subscribe` / `addEventListener` (spec §4.1, src
lines 41–68; the host implementation is not under `src/`). A `none` callback
is a no-op; otherwise the entry is appended unless an entry with the same
`(eventName, callback, capture)` triple already exists, in which case the
call is a no-op and options are not merged. -/
def addEventListener (reg : List ListenerEntry) (eventName : String)
    (callback : Option Nat) (options : OptionsArg) : List ListenerEntry :=
  match callback with
  | none => reg
  | some c =>
    let o := options.toOptions
    let e : ListenerEntry := ⟨eventName, c, o.capture, o.passive, o.once⟩
    if hasTriple reg e then reg else reg ++ [e]

/-- Remove every entry matching `e`'s identity triple (at most one in a
well-formed registry). -/
def removeTriple (reg : List ListenerEntry) (e : ListenerEntry) : List ListenerEntry :=
  reg.filter (fun x => !(sameTriple e x))

/-- Modelled from the spec: `unsubscribe` / `removeEventListener` (spec §4.1,
src lines 73–79; the host implementation is not under `src/`). Only `capture`
from the options participates in matching; an unmatched triple is a silent
no-op. -/
def removeEventListener (reg : List ListenerEntry) (eventName : String)
    (callback : Option Nat) (options : OptionsArg) : List ListenerEntry :=
  match callback with
  | none => reg
  | some c => removeTriple reg ⟨eventName, c, options.toOptions.capture, false, false⟩

/-- Modelled from the spec: an Event value — `type` plus `cancelable`
(spec §3 Event; the dispatch-local default-prevented flag lives in
`DispatchState`). -/
structure Event where
  type : String
  cancelable : Bool
deriving DecidableEq

/-- Modelled from the spec: the effects a callback may perform while it is
invoked — request cancellation (`preventDefault`), mutate the registry, or
raise an error (errors are opaque `Nat` identifiers). -/
inductive Action where
  | preventDefault
  | addListener (eventName : String) (callback : Option Nat) (options : OptionsArg)
  | removeListener (eventName : String) (callback : Option Nat) (options : OptionsArg)
  | raiseErr (err : Nat)
deriving DecidableEq

/-- A behavior maps each callback identity to the list of effects it
performs on each invocation. -/
def Behavior : Type := Nat → List Action

/-- Whether an action is a cancellation request. -/
def isPD : Action → Bool
  | .preventDefault => true
  | _ => false

/-- Whether an action adds a listener. -/
def isAdd : Action → Bool
  | .addListener _ _ _ => true
  | _ => false

/-- Whether an action list contains a cancellation request. -/
def hasPD (acts : List Action) : Bool := acts.any isPD

/-- The error raised by an action, if any. -/
def errOf : Action → Option Nat
  | .raiseErr e => some e
  | _ => none

/-- The errors raised by an action list, in order. -/
def errsOf (acts : List Action) : List Nat := acts.filterMap errOf

/-- Dispatch-time state: the live registry, the event's default-prevented
flag, the errors collected so far, and the trace of entries invoked so far. -/
structure DispatchState where
  reg : List ListenerEntry
  defaultPrevented : Bool
  errors : List Nat
  invoked : List ListenerEntry
deriving DecidableEq

/-- Modelled from the spec: the effect of one callback action during
dispatch. A cancellation request is ignored when the event is not cancelable
or the invoking entry is `passive` (spec §4.1 Cancellation); registry
mutations go through the live registry; a raised error is collected. -/
def applyAction (ev : Event) (passive : Bool) (st : DispatchState) : Action → DispatchState
  | .preventDefault =>
      if ev.cancelable && !passive then { st with defaultPrevented := true } else st
  | .addListener n c o => { st with reg := addEventListener st.reg n c o }
  | .removeListener n c o => { st with reg := removeEventListener st.reg n c o }
  | .raiseErr e => { st with errors := st.errors ++ [e] }

/-- Run all of one callback's actions in order. -/
def runActions (ev : Event) (passive : Bool) : DispatchState → List Action → DispatchState
  | st, [] => st
  | st, a :: acts => runActions ev passive (applyAction ev passive st a) acts

/-- Modelled from the spec: the `once` pre-invocation removal — an entry
whose `once` flag is set is removed from the live registry before its
callback is invoked (spec §4.1 step 3a). -/
def onceRemoved (st : DispatchState) (e : ListenerEntry) : DispatchState :=
  if e.once then { st with reg := removeTriple st.reg e } else st

/-- Modelled from the spec: invocation of one snapshotted entry (spec §4.1
step 3): `once` removal first, then the callback's actions with the entry's
`passive` flag in force, and the entry is recorded in the invocation trace. -/
def invokeEntry (beh : Behavior) (ev : Event) (st : DispatchState) (e : ListenerEntry) :
    DispatchState :=
  let st2 := runActions ev e.passive (onceRemoved st e) (beh e.callback)
  { st2 with invoked := st2.invoked ++ [e] }

/-- Modelled from the spec: the dispatch loop over the snapshotted entries
(spec §4.1 step 3); an error from one listener does not abort the loop. -/
def dispatchLoop (beh : Behavior) (ev : Event) : DispatchState → List ListenerEntry → DispatchState
  | st, [] => st
  | st, e :: es => dispatchLoop beh ev (invokeEntry beh ev st e) es

/-- Modelled from the spec: the snapshot taken when dispatch begins — the
entries registered for `event.type`, all `capture` entries first in
registration order, then all non-`capture` entries in registration order
(spec §4.1 steps 1–2). -/
def snapshot (reg : List ListenerEntry) (type : String) : List ListenerEntry :=
  let rel := reg.filter (fun e => e.eventName == type)
  rel.filter (fun e => e.capture) ++ rel.filter (fun e => !e.capture)

/-- The observable outcome of one `publish` / `dispatchEvent` call. -/
structure DispatchResult where
  registry : List ListenerEntry
  invoked : List ListenerEntry
  errors : List Nat
  returnValue : Bool
deriving DecidableEq

/-- Modelled from the spec: `publish` / `dispatchEvent` (spec §4.1, src lines
69–72; the host implementation is not under `src/`). It snapshots, runs the
loop, and returns `true` iff the event is not cancelable or the
default-prevented flag was never set during that dispatch. -/
def dispatchEvent (beh : Behavior) (reg : List ListenerEntry) (ev : Event) : DispatchResult :=
  let st := dispatchLoop beh ev ⟨reg, false, [], []⟩ (snapshot reg ev.type)
  ⟨st.reg, st.invoked, st.errors, !ev.cancelable || !st.defaultPrevented⟩

/-- Modelled from the spec: the value `publish` surfaces to its caller —
collected listener errors are re-raised (as a composite list) only after all
listeners have run; otherwise the boolean return value (spec §4.1 step 3b
and §7). -/
def dispatchEventExc (beh : Behavior) (reg : List ListenerEntry) (ev : Event) :
    Except (List Nat) Bool :=
  let r := dispatchEvent beh reg ev
  if r.errors = [] then Except.ok r.returnValue else Except.error r.errors

/-- From the source (src lines 36–38): the exported `TypedEventTarget` value
is the host `EventTarget` itself (`EventTarget as any`), so its
`addEventListener` is the host's. -/
def TypedEventTarget.addEventListener :
    List ListenerEntry → String → Option Nat → OptionsArg → List ListenerEntry :=
  EventTargetModel.addEventListener

/-- From the source (src lines 36–38): the exported `TypedEventTarget`'s
`removeEventListener` is the host's. -/
def TypedEventTarget.removeEventListener :
    List ListenerEntry → String → Option Nat → OptionsArg → List ListenerEntry :=
  EventTargetModel.removeEventListener

/-- From the source (src lines 36–38): the exported `TypedEventTarget`'s
`dispatchEvent` is the host's. -/
def TypedEventTarget.dispatchEvent :
    Behavior → List ListenerEntry → Event → DispatchResult :=
  EventTargetModel.dispatchEvent

/-- An entry `e` triggers cancellation under behavior `beh` for event `ev`
when the event is cancelable, the entry is not passive, and the callback
requests cancellation. -/
def trig (beh : Behavior) (ev : Event) (e : ListenerEntry) : Bool :=
  ev.cancelable && !e.passive && hasPD (beh e.callback)

/-- The errors collected from a list of entries, in invocation order. -/
def collectErrs (beh : Behavior) : List ListenerEntry → List Nat
  | [] => []
  | e :: es => errsOf (beh e.callback) ++ collectErrs beh es

/-- A behavior that never adds a listener to the registry. -/
def noAdd (beh : Behavior) : Prop := ∀ c, ∀ a ∈ beh c, isAdd a = false

theorem sameTriple_iff (a b : ListenerEntry) :
    sameTriple a b = true ↔
      a.eventName = b.eventName ∧ a.callback = b.callback ∧ a.capture = b.capture := by
  simp [sameTriple, and_assoc]

theorem sameTriple_self (e : ListenerEntry) : sameTriple e e = true := by
  simp [sameTriple]

theorem sameTriple_congr {a b : ListenerEntry} (h1 : a.eventName = b.eventName)
    (h2 : a.callback = b.callback) (h3 : a.capture = b.capture) (x : ListenerEntry) :
    sameTriple a x = sameTriple b x := by
  simp [sameTriple, h1, h2, h3]

theorem hasTriple_eq_false_iff {reg : List ListenerEntry} {e : ListenerEntry} :
    hasTriple reg e = false ↔ ∀ x ∈ reg, sameTriple e x = false := by
  simp [hasTriple, List.any_eq_false]

theorem hasTriple_append (l₁ l₂ : List ListenerEntry) (e : ListenerEntry) :
    hasTriple (l₁ ++ l₂) e = (hasTriple l₁ e || hasTriple l₂ e) := by
  simp [hasTriple, List.any_append]

theorem countTriple_append (l₁ l₂ : List ListenerEntry) (e : ListenerEntry) :
    countTriple (l₁ ++ l₂) e = countTriple l₁ e + countTriple l₂ e := by
  simp [countTriple, List.countP_append]

theorem countTriple_cons (x : ListenerEntry) (rest : List ListenerEntry) (e : ListenerEntry) :
    countTriple (x :: rest) e = countTriple rest e + (if sameTriple e x then 1 else 0) := by
  simp [countTriple, List.countP_cons]

theorem countTriple_eq_zero {reg : List ListenerEntry} {e : ListenerEntry} :
    countTriple reg e = 0 ↔ ∀ x ∈ reg, sameTriple e x = false := by
  simp [countTriple, List.countP_eq_zero]

theorem countTriple_pos {reg : List ListenerEntry} {e : ListenerEntry} (h : e ∈ reg) :
    0 < countTriple reg e :=
  List.countP_pos_iff.mpr ⟨e, h, sameTriple_self e⟩

theorem countTriple_eq_zero_not_mem {reg : List ListenerEntry} {e : ListenerEntry}
    (h : countTriple reg e = 0) : e ∉ reg := by
  intro hmem
  have := countTriple_pos hmem
  omega

theorem countTriple_removeTriple_self (reg : List ListenerEntry) (e : ListenerEntry) :
    countTriple (removeTriple reg e) e = 0 := by
  rw [countTriple_eq_zero]
  intro x hx
  rw [removeTriple, List.mem_filter] at hx
  simpa using hx.2

theorem hasTriple_removeTriple_self (reg : List ListenerEntry) (e : ListenerEntry) :
    hasTriple (removeTriple reg e) e = false := by
  rw [hasTriple_eq_false_iff]
  intro x hx
  rw [removeTriple, List.mem_filter] at hx
  simpa using hx.2

theorem countTriple_removeTriple_le (reg : List ListenerEntry) (x e : ListenerEntry) :
    countTriple (removeTriple reg x) e ≤ countTriple reg e :=
  (List.filter_sublist reg).countP_le _

theorem countTriple_removeEventListener_le (reg : List ListenerEntry) (n : String)
    (c : Option Nat) (o : OptionsArg) (e : ListenerEntry) :
    countTriple (removeEventListener reg n c o) e ≤ countTriple reg e := by
  cases c with
  | none => simp [removeEventListener]
  | some cb => exact countTriple_removeTriple_le ..

theorem wfb_countTriple_le_one {reg : List ListenerEntry} (h : wfb reg = true)
    (e : ListenerEntry) : countTriple reg e ≤ 1 := by
  induction reg with
  | nil => simp [countTriple]
  | cons x rest ih =>
    rw [wfb, Bool.and_eq_true, Bool.not_eq_true'] at h
    obtain ⟨h1, h2⟩ := h
    have hrest := ih h2
    rw [countTriple_cons]
    by_cases hst : sameTriple e x = true
    · have hzero : countTriple rest e = 0 := by
        rw [countTriple_eq_zero]
        intro y hy
        by_contra hy'
        have hey : sameTriple e y = true := by
          revert hy'; cases sameTriple e y <;> simp
        obtain ⟨a1, a2, a3⟩ := (sameTriple_iff e x).mp hst
        obtain ⟨b1, b2, b3⟩ := (sameTriple_iff e y).mp hey
        have hxy : sameTriple x y = true :=
          (sameTriple_iff x y).mpr ⟨a1.symm.trans b1, a2.symm.trans b2, a3.symm.trans b3⟩
        have : hasTriple rest x = true := by
          rw [hasTriple, List.any_eq_true]; exact ⟨y, hy, hxy⟩
        rw [this] at h1; exact Bool.noConfusion h1
      simp [hst, hzero]
    · rw [if_neg hst]; omega

theorem wfb_countTriple_eq_one {reg : List ListenerEntry} {e : ListenerEntry}
    (h : wfb reg = true) (he : e ∈ reg) : countTriple reg e = 1 :=
  Nat.le_antisymm (wfb_countTriple_le_one h e) (countTriple_pos he)

theorem errsOf_cons (a : Action) (acts : List Action) :
    errsOf (a :: acts) = (errOf a).toList ++ errsOf acts := by
  cases h : errOf a <;> simp [errsOf, List.filterMap_cons, h]

theorem applyAction_invoked (ev : Event) (p : Bool) (st : DispatchState) (a : Action) :
    (applyAction ev p st a).invoked = st.invoked := by
  cases a with
  | preventDefault => simp only [applyAction]; split <;> rfl
  | addListener n c o => rfl
  | removeListener n c o => rfl
  | raiseErr er => rfl

theorem applyAction_errors (ev : Event) (p : Bool) (st : DispatchState) (a : Action) :
    (applyAction ev p st a).errors = st.errors ++ (errOf a).toList := by
  cases a with
  | preventDefault =>
    simp only [applyAction, errOf, Option.toList, List.append_nil]
    split <;> rfl
  | addListener n c o => simp [applyAction, errOf]
  | removeListener n c o => simp [applyAction, errOf]
  | raiseErr er => simp [applyAction, errOf]

theorem applyAction_dp (ev : Event) (p : Bool) (st : DispatchState) (a : Action) :
    (applyAction ev p st a).defaultPrevented =
      (st.defaultPrevented || (ev.cancelable && !p && isPD a)) := by
  cases a with
  | preventDefault =>
    simp only [applyAction, isPD, Bool.and_true]
    split <;> simp_all
  | addListener n c o => simp [applyAction, isPD]
  | removeListener n c o => simp [applyAction, isPD]
  | raiseErr er => simp [applyAction, isPD]

theorem applyAction_reg_count {a : Action} (ha : isAdd a = false) (ev : Event) (p : Bool)
    (st : DispatchState) (e : ListenerEntry) :
    countTriple (applyAction ev p st a).reg e ≤ countTriple st.reg e := by
  cases a with
  | preventDefault => simp only [applyAction]; split <;> simp
  | addListener n c o => simp [isAdd] at ha
  | removeListener n c o => exact countTriple_removeEventListener_le ..
  | raiseErr er => simp [applyAction]

theorem runActions_invoked (ev : Event) (p : Bool) (acts : List Action) :
    ∀ st : DispatchState, (runActions ev p st acts).invoked = st.invoked := by
  induction acts with
  | nil => intro st; rfl
  | cons a acts ih => intro st; rw [runActions, ih, applyAction_invoked]

theorem runActions_errors (ev : Event) (p : Bool) (acts : List Action) :
    ∀ st : DispatchState, (runActions ev p st acts).errors = st.errors ++ errsOf acts := by
  induction acts with
  | nil => intro st; simp [runActions, errsOf]
  | cons a acts ih =>
    intro st
    rw [runActions, ih, applyAction_errors, errsOf_cons, List.append_assoc]

theorem runActions_dp (ev : Event) (p : Bool) (acts : List Action) :
    ∀ st : DispatchState, (runActions ev p st acts).defaultPrevented =
      (st.defaultPrevented || (ev.cancelable && !p && hasPD acts)) := by
  induction acts with
  | nil => intro st; simp [runActions, hasPD]
  | cons a acts ih =>
    intro st
    rw [runActions, ih, applyAction_dp]
    have : hasPD (a :: acts) = (isPD a || hasPD acts) := by simp [hasPD]
    rw [this, Bool.and_or_distrib_left, Bool.or_assoc]

theorem runActions_reg_count {acts : List Action} (ha : ∀ a ∈ acts, isAdd a = false)
    (ev : Event) (p : Bool) (e : ListenerEntry) :
    ∀ st : DispatchState, countTriple (runActions ev p st acts).reg e ≤ countTriple st.reg e := by
  induction acts with
  | nil => intro st; simp [runActions]
  | cons a acts ih =>
    intro st
    rw [runActions]
    exact Nat.le_trans
      (ih (fun x hx => ha x (List.mem_cons_of_mem a hx)) (applyAction ev p st a))
      (applyAction_reg_count (ha a (List.mem_cons_self a acts)) ev p st e)

theorem onceRemoved_invoked (st : DispatchState) (e : ListenerEntry) :
    (onceRemoved st e).invoked = st.invoked := by
  rw [onceRemoved]; split <;> rfl

theorem onceRemoved_errors (st : DispatchState) (e : ListenerEntry) :
    (onceRemoved st e).errors = st.errors := by
  rw [onceRemoved]; split <;> rfl

theorem onceRemoved_dp (st : DispatchState) (e : ListenerEntry) :
    (onceRemoved st e).defaultPrevented = st.defaultPrevented := by
  rw [onceRemoved]; split <;> rfl

theorem onceRemoved_reg_count (st : DispatchState) (e e' : ListenerEntry) :
    countTriple (onceRemoved st e).reg e' ≤ countTriple st.reg e' := by
  rw [onceRemoved]; split
  · exact countTriple_removeTriple_le ..
  · exact Nat.le_refl _

theorem onceRemoved_once {st : DispatchState} {e : ListenerEntry} (h : e.once = true) :
    (onceRemoved st e).reg = removeTriple st.reg e := by
  simp [onceRemoved, h]

theorem invokeEntry_invoked (beh : Behavior) (ev : Event) (st : DispatchState)
    (e : ListenerEntry) : (invokeEntry beh ev st e).invoked = st.invoked ++ [e] := by
  simp only [invokeEntry, runActions_invoked, onceRemoved_invoked]

theorem invokeEntry_errors (beh : Behavior) (ev : Event) (st : DispatchState)
    (e : ListenerEntry) :
    (invokeEntry beh ev st e).errors = st.errors ++ errsOf (beh e.callback) := by
  simp only [invokeEntry, runActions_errors, onceRemoved_errors]

theorem invokeEntry_dp (beh : Behavior) (ev : Event) (st : DispatchState) (e : ListenerEntry) :
    (invokeEntry beh ev st e).defaultPrevented =
      (st.defaultPrevented || trig beh ev e) := by
  simp only [invokeEntry, runActions_dp, onceRemoved_dp, trig]

theorem invokeEntry_reg_count {beh : Behavior} (hb : noAdd beh) (ev : Event)
    (st : DispatchState) (e x : ListenerEntry) :
    countTriple (invokeEntry beh ev st x).reg e ≤ countTriple st.reg e := by
  simp only [invokeEntry]
  exact Nat.le_trans (runActions_reg_count (hb x.callback) ev x.passive e _)
    (onceRemoved_reg_count st x e)

theorem dispatchLoop_invoked (beh : Behavior) (ev : Event) (es : List ListenerEntry) :
    ∀ st : DispatchState, (dispatchLoop beh ev st es).invoked = st.invoked ++ es := by
  induction es with
  | nil => intro st; simp [dispatchLoop]
  | cons e es ih =>
    intro st
    rw [dispatchLoop, ih, invokeEntry_invoked, List.append_assoc]
    rfl

theorem dispatchLoop_errors (beh : Behavior) (ev : Event) (es : List ListenerEntry) :
    ∀ st : DispatchState, (dispatchLoop beh ev st es).errors = st.errors ++ collectErrs beh es := by
  induction es with
  | nil => intro st; simp [dispatchLoop, collectErrs]
  | cons e es ih =>
    intro st
    rw [dispatchLoop, ih, invokeEntry_errors, collectErrs, List.append_assoc]

theorem dispatchLoop_dp (beh : Behavior) (ev : Event) (es : List ListenerEntry) :
    ∀ st : DispatchState, (dispatchLoop beh ev st es).defaultPrevented =
      (st.defaultPrevented || es.any (trig beh ev)) := by
  induction es with
  | nil => intro st; simp [dispatchLoop]
  | cons e es ih =>
    intro st
    rw [dispatchLoop, ih, invokeEntry_dp, List.any_cons, Bool.or_assoc]

theorem dispatchLoop_reg_count {beh : Behavior} (hb : noAdd beh) (ev : Event)
    (es : List ListenerEntry) (e : ListenerEntry) :
    ∀ st : DispatchState, countTriple (dispatchLoop beh ev st es).reg e ≤ countTriple st.reg e := by
  induction es with
  | nil => intro st; simp [dispatchLoop]
  | cons x es ih =>
    intro st
    rw [dispatchLoop]
    exact Nat.le_trans (ih _) (invokeEntry_reg_count hb ev st e x)

theorem dispatchLoop_once {beh : Behavior} (hb : noAdd beh) (ev : Event)
    {e : ListenerEntry} (honce : e.once = true) (es : List ListenerEntry) :
    ∀ st : DispatchState, e ∈ es → countTriple (dispatchLoop beh ev st es).reg e = 0 := by
  induction es with
  | nil => intro st h; exact absurd h (List.not_mem_nil e)
  | cons x es ih =>
    intro st hmem
    rcases List.mem_cons.mp hmem with heq | hmem'
    · subst heq
      rw [dispatchLoop]
      have hstep : countTriple (invokeEntry beh ev st e).reg e = 0 := by
        have h1 : countTriple (onceRemoved st e).reg e = 0 := by
          rw [onceRemoved_once honce]; exact countTriple_removeTriple_self ..
        have h2 := runActions_reg_count (hb e.callback) ev e.passive e (onceRemoved st e)
        simp only [invokeEntry]
        omega
      have := dispatchLoop_reg_count hb ev es e (invokeEntry beh ev st e)
      omega
    · rw [dispatchLoop]
      exact ih _ hmem'

theorem mem_snapshot {reg : List ListenerEntry} {t : String} {e : ListenerEntry} :
    e ∈ snapshot reg t ↔ e ∈ reg ∧ e.eventName = t := by
  cases hc : e.capture <;>
    simp [snapshot, List.mem_filter, List.mem_append, hc, and_assoc]

theorem countTriple_snapshot (reg : List ListenerEntry) (t : String) (e : ListenerEntry) :
    countTriple (snapshot reg t) e = if e.eventName = t then countTriple reg e else 0 := by
  have hcap : ∀ q : ListenerEntry → Bool,
      ((reg.filter (fun x => x.eventName == t)).filter q).countP (fun x => sameTriple e x)
        = reg.countP (fun x => (sameTriple e x && q x) && (x.eventName == t)) := by
    intro q
    rw [List.countP_filter, List.countP_filter]
  simp only [snapshot, countTriple]
  rw [List.countP_append, hcap, hcap]
  by_cases h : e.eventName = t
  · rw [if_pos h]
    have congr1 : ∀ b : Bool,
        reg.countP (fun x => (sameTriple e x && (x.capture == b)) && (x.eventName == t))
          = reg.countP (fun x => sameTriple e x && (e.capture == b)) := by
      intro b
      apply List.countP_congr
      intro x hx
      cases hst : sameTriple e x with
      | false => simp [hst]
      | true =>
        obtain ⟨h1, h2, h3⟩ := (sameTriple_iff e x).mp hst
        simp [hst, ← h3, show x.eventName = t from h1 ▸ h]
    have e1 : reg.countP (fun x => (sameTriple e x && x.capture) && (x.eventName == t))
        = reg.countP (fun x => sameTriple e x && (e.capture == true)) := by
      rw [← congr1 true]
      apply List.countP_congr
      intro x hx
      simp
    have e2 : reg.countP (fun x => (sameTriple e x && !x.capture) && (x.eventName == t))
        = reg.countP (fun x => sameTriple e x && (e.capture == false)) := by
      rw [← congr1 false]
      apply List.countP_congr
      intro x hx
      simp [Bool.not_eq_true', Bool.beq_eq_decide_eq]
    rw [e1, e2]
    cases e.capture with
    | true =>
      have z : reg.countP (fun x => sameTriple e x && (true == false)) = 0 :=
        List.countP_eq_zero.mpr (fun x _ => by simp)
      have s : reg.countP (fun x => sameTriple e x && (true == true))
          = reg.countP (fun x => sameTriple e x) :=
        List.countP_congr (fun x _ => by simp)
      rw [z, s]
      omega
    | false =>
      have z : reg.countP (fun x => sameTriple e x && (false == true)) = 0 :=
        List.countP_eq_zero.mpr (fun x _ => by simp)
      have s : reg.countP (fun x => sameTriple e x && (false == false))
          = reg.countP (fun x => sameTriple e x) :=
        List.countP_congr (fun x _ => by simp)
      rw [z, s]
      omega
  · rw [if_neg h]
    have hz : ∀ q : ListenerEntry → Bool,
        reg.countP (fun x => (sameTriple e x && q x) && (x.eventName == t)) = 0 := by
      intro q
      apply List.countP_eq_zero.mpr
      intro x hx
      cases hst : sameTriple e x with
      | false => simp [hst]
      | true =>
        obtain ⟨h1, _, _⟩ := (sameTriple_iff e x).mp hst
        have : ¬(x.eventName = t) := fun hxt => h (h1.trans hxt)
        simp [hst, this]
    rw [hz, hz]

theorem dispatchEvent_invoked (beh : Behavior) (reg : List ListenerEntry) (ev : Event) :
    (dispatchEvent beh reg ev).invoked = snapshot reg ev.type := by
  simp only [dispatchEvent]
  rw [dispatchLoop_invoked]
  simp

theorem dispatchEvent_errors (beh : Behavior) (reg : List ListenerEntry) (ev : Event) :
    (dispatchEvent beh reg ev).errors = collectErrs beh (snapshot reg ev.type) := by
  simp only [dispatchEvent]
  rw [dispatchLoop_errors]
  simp

theorem dispatchEvent_ret (beh : Behavior) (reg : List ListenerEntry) (ev : Event) :
    (dispatchEvent beh reg ev).returnValue =
      (!ev.cancelable || !((snapshot reg ev.type).any (trig beh ev))) := by
  simp only [dispatchEvent]
  rw [dispatchLoop_dp]
  simp

theorem dispatchEvent_registry_count {beh : Behavior} (hb : noAdd beh)
    (reg : List ListenerEntry) (ev : Event) (e : ListenerEntry) :
    countTriple (dispatchEvent beh reg ev).registry e ≤ countTriple reg e := by
  simp only [dispatchEvent]
  exact dispatchLoop_reg_count hb ev _ e _

theorem dispatchEvent_registry_once {beh : Behavior} (hb : noAdd beh)
    {reg : List ListenerEntry} {ev : Event} {e : ListenerEntry} (honce : e.once = true)
    (hmem : e ∈ reg) (hname : e.eventName = ev.type) :
    countTriple (dispatchEvent beh reg ev).registry e = 0 := by
  simp only [dispatchEvent]
  exact dispatchLoop_once hb ev honce _ _ (mem_snapshot.mpr ⟨hmem, hname⟩)

theorem returnValue_false_iff (beh : Behavior) (reg : List ListenerEntry) (ev : Event) :
    (dispatchEvent beh reg ev).returnValue = false ↔
      ev.cancelable = true ∧ (snapshot reg ev.type).any (trig beh ev) = true := by
  rw [dispatchEvent_ret]
  cases hc : ev.cancelable <;>
    cases ha : (snapshot reg ev.type).any (trig beh ev) <;> simp [hc, ha]

/-- Concrete callback behavior that requests cancellation. -/
def behPrevent : Behavior := fun _ => [Action.preventDefault]

/-- Concrete callback behavior with no effects. -/
def behSilent : Behavior := fun _ => []

/-- Concrete behavior where only callback 0 requests cancellation. -/
def behFirstPD : Behavior := fun c => if c = 0 then [Action.preventDefault] else []

/-- Concrete behavior where only callback 0 raises error 7. -/
def behErr : Behavior := fun c => if c = 0 then [Action.raiseErr 7] else []

/-- A concrete cancelable event on channel "msg". -/
def evMsg : Event := ⟨"msg", true⟩

/-- A concrete non-passive listener entry. -/
def entNP : ListenerEntry := ⟨"msg", 0, false, false, false⟩

/-- A concrete passive listener entry. -/
def entP : ListenerEntry := ⟨"msg", 0, false, true, false⟩

/-- A concrete `once` listener entry. -/
def entOnce : ListenerEntry := ⟨"msg", 0, false, false, true⟩

/-- A second concrete listener entry (callback 1). -/
def entB : ListenerEntry := ⟨"msg", 1, false, false, false⟩

/-- C1: `publish` returns `false` iff the event is cancelable and at least one
non-passive invoked listener requests cancellation during that dispatch; on a
non-cancelable event it always returns `true`. -/
theorem C1_dispatch_return_contract (beh : Behavior) (reg : List ListenerEntry) (ev : Event) :
    ((dispatchEvent beh reg ev).returnValue = false ↔
      ev.cancelable = true ∧ ∃ e ∈ (dispatchEvent beh reg ev).invoked,
        e.passive = false ∧ hasPD (beh e.callback) = true) ∧
    (ev.cancelable = false → (dispatchEvent beh reg ev).returnValue = true) := by
  constructor
  · rw [returnValue_false_iff, dispatchEvent_invoked]
    constructor
    · rintro ⟨hc, hany⟩
      obtain ⟨e, hmem, htrig⟩ := List.any_eq_true.mp hany
      rw [trig] at htrig
      simp only [Bool.and_eq_true, Bool.not_eq_true'] at htrig
      exact ⟨hc, e, hmem, htrig.1.2, htrig.2⟩
    · rintro ⟨hc, e, hmem, hp, hpd⟩
      exact ⟨hc, List.any_eq_true.mpr ⟨e, hmem, by simp [trig, hc, hp, hpd]⟩⟩
  · intro hc
    cases hret : (dispatchEvent beh reg ev).returnValue
    · have := (returnValue_false_iff beh reg ev).mp hret
      rw [hc] at this
      exact Bool.noConfusion this.1
    · rfl

/-- C1 witness: with one non-passive cancelling listener on a cancelable
event, `publish` returns `false`. -/
theorem C1_dispatch_return_contract_witness :
    (dispatchEvent behPrevent [entNP] evMsg).returnValue = false :=
  (C1_dispatch_return_contract behPrevent [entNP] evMsg).1.mpr
    ⟨rfl, entNP, by decide, rfl, by decide⟩

/-- C2: the invocation trace of a `publish` is exactly: all registered
`capture` entries for the event's type in registration order, followed by all
non-`capture` entries for that type in registration order. -/
theorem C2_capture_order (beh : Behavior) (reg : List ListenerEntry) (ev : Event) :
    (dispatchEvent beh reg ev).invoked =
      (reg.filter (fun e => e.eventName == ev.type)).filter (fun e => e.capture) ++
        (reg.filter (fun e => e.eventName == ev.type)).filter (fun e => !e.capture) := by
  rw [dispatchEvent_invoked]; rfl

/-- C5: only the entries snapshotted when dispatch begins are invoked;
an entry absent from the registry at dispatch start is never invoked in that
dispatch; an entry present in the post-dispatch registry for the right
channel is invoked by the next `publish`. -/
theorem C5_snapshot_isolation (beh beh2 : Behavior) (reg : List ListenerEntry)
    (ev ev2 : Event) :
    (dispatchEvent beh reg ev).invoked = snapshot reg ev.type ∧
    (∀ e, e ∈ (dispatchEvent beh reg ev).invoked → e ∈ reg) ∧
    (∀ e, e ∉ reg → e ∉ (dispatchEvent beh reg ev).invoked) ∧
    (∀ e, e ∈ (dispatchEvent beh reg ev).registry → e.eventName = ev2.type →
      e ∈ (dispatchEvent beh2 (dispatchEvent beh reg ev).registry ev2).invoked) := by
  refine ⟨dispatchEvent_invoked .., ?_, ?_, ?_⟩
  · intro e he
    rw [dispatchEvent_invoked] at he
    exact (mem_snapshot.mp he).1
  · intro e he hmem
    rw [dispatchEvent_invoked] at hmem
    exact he (mem_snapshot.mp hmem).1
  · intro e he hname
    rw [dispatchEvent_invoked]
    exact mem_snapshot.mpr ⟨he, hname⟩

/-- C5 witness: a listener added during dispatch (by the invoked listener
itself) is not invoked in that same dispatch but is invoked by the next one. -/
theorem C5_snapshot_isolation_witness :
    (dispatchEvent behSilent [entNP] evMsg).invoked = snapshot [entNP] evMsg.type ∧
    entB ∉ (dispatchEvent behSilent [entNP] evMsg).invoked :=
  ⟨(C5_snapshot_isolation behSilent behSilent [entNP] evMsg evMsg).1,
    (C5_snapshot_isolation behSilent behSilent [entNP] evMsg evMsg).2.2.1 entB (by decide)⟩

/-- C6: if every listener that requests cancellation is passive, `publish`
returns `true` — a passive listener's cancellation request never causes a
`false` return. -/
theorem C6_passive_cancellation_ignored (beh : Behavior) (reg : List ListenerEntry)
    (ev : Event) (hp : ∀ e ∈ reg, hasPD (beh e.callback) = true → e.passive = true) :
    (dispatchEvent beh reg ev).returnValue = true := by
  cases hret : (dispatchEvent beh reg ev).returnValue
  · obtain ⟨hc, hany⟩ := (returnValue_false_iff beh reg ev).mp hret
    obtain ⟨e, hmem, htrig⟩ := List.any_eq_true.mp hany
    rw [trig] at htrig
    simp only [Bool.and_eq_true, Bool.not_eq_true'] at htrig
    have hpass := hp e (mem_snapshot.mp hmem).1 htrig.2
    rw [hpass] at htrig
    exact Bool.noConfusion htrig.1.2
  · rfl

/-- C6 witness: a passive listener that requests cancellation does not make
`publish` return `false`. -/
theorem C6_passive_cancellation_ignored_witness :
    (dispatchEvent behPrevent [entP] evMsg).returnValue = true :=
  C6_passive_cancellation_ignored behPrevent [entP] evMsg
    (by intro e he _; rw [List.mem_singleton] at he; subst he; rfl)

/-- C7: an error raised by a listener does not prevent the remaining
snapshotted listeners from being invoked; all raised errors are collected in
invocation order and surfaced to the caller (as the composite list) only
after the loop, and a dispatch with no errors surfaces the boolean result. -/
theorem C7_error_collection (beh : Behavior) (reg : List ListenerEntry) (ev : Event) :
    (dispatchEvent beh reg ev).invoked = snapshot reg ev.type ∧
    (dispatchEvent beh reg ev).errors = collectErrs beh (snapshot reg ev.type) ∧
    ((dispatchEvent beh reg ev).errors = [] →
      dispatchEventExc beh reg ev = Except.ok (dispatchEvent beh reg ev).returnValue) ∧
    ((dispatchEvent beh reg ev).errors ≠ [] →
      dispatchEventExc beh reg ev = Except.error (dispatchEvent beh reg ev).errors) := by
  refine ⟨dispatchEvent_invoked .., dispatchEvent_errors .., ?_, ?_⟩
  · intro h
    simp [dispatchEventExc, h]
  · intro h
    simp [dispatchEventExc, h]

/-- C7 witness: with a first listener raising error 7, the second listener is
still invoked and the error is re-raised to the caller after the loop. -/
theorem C7_error_collection_witness :
    (dispatchEvent behErr [entNP, entB] evMsg).invoked = snapshot [entNP, entB] evMsg.type ∧
    dispatchEventExc behErr [entNP, entB] evMsg =
      Except.error (dispatchEvent behErr [entNP, entB] evMsg).errors :=
  ⟨(C7_error_collection behErr [entNP, entB] evMsg).1,
    (C7_error_collection behErr [entNP, entB] evMsg).2.2.2 (by decide)⟩

/-- C10: the default-prevented flag is monotone during a dispatch — once set
it stays set through the rest of the loop — so a successful cancellation by a
non-passive listener on a cancelable event forces `publish` to return
`false` regardless of the listeners invoked afterwards. -/
theorem C10_default_prevented_monotone (beh : Behavior) (reg : List ListenerEntry)
    (ev : Event) (e : ListenerEntry) :
    (∀ (st : DispatchState) (es : List ListenerEntry), st.defaultPrevented = true →
      (dispatchLoop beh ev st es).defaultPrevented = true) ∧
    (ev.cancelable = true → e ∈ snapshot reg ev.type → e.passive = false →
      hasPD (beh e.callback) = true → (dispatchEvent beh reg ev).returnValue = false) := by
  constructor
  · intro st es h
    rw [dispatchLoop_dp, h]
    rfl
  · intro hc hmem hp hpd
    rw [returnValue_false_iff]
    exact ⟨hc, List.any_eq_true.mpr ⟨e, hmem, by simp [trig, hc, hp, hpd]⟩⟩

/-- C10 witness: the first of two listeners cancels; `publish` returns
`false` even though the second listener does nothing. -/
theorem C10_default_prevented_monotone_witness :
    (dispatchEvent behFirstPD [entNP, entB] evMsg).returnValue = false :=
  (C10_default_prevented_monotone behFirstPD [entNP, entB] evMsg entNP).2
    rfl (by decide) rfl (by decide)

/-- C3: re-subscribing an identical `(eventName, callback, capture)` triple is
a no-op — the registry is unchanged, options of the duplicate call are not
merged — and a subsequent `publish` on that channel invokes the entry exactly
once. -/
theorem C3_idempotent_subscribe (reg : List ListenerEntry) (n : String) (c : Nat)
    (o₁ o₂ : OptionsArg) (beh : Behavior) (ev : Event)
    (hcap : o₂.toOptions.capture = o₁.toOptions.capture) :
    addEventListener (addEventListener reg n (some c) o₁) n (some c) o₂ =
      addEventListener reg n (some c) o₁ ∧
    (hasTriple reg ⟨n, c, o₁.toOptions.capture, o₁.toOptions.passive, o₁.toOptions.once⟩
        = false →
      ev.type = n →
      countTriple
        (dispatchEvent beh
          (addEventListener (addEventListener reg n (some c) o₁) n (some c) o₂) ev).invoked
        ⟨n, c, o₁.toOptions.capture, o₁.toOptions.passive, o₁.toOptions.once⟩ = 1) := by
  set e₁ : ListenerEntry :=
    ⟨n, c, o₁.toOptions.capture, o₁.toOptions.passive, o₁.toOptions.once⟩ with he₁
  set e₂ : ListenerEntry :=
    ⟨n, c, o₂.toOptions.capture, o₂.toOptions.passive, o₂.toOptions.once⟩ with he₂
  have hfun : sameTriple e₂ = sameTriple e₁ :=
    funext (sameTriple_congr rfl rfl hcap)
  have hdup : addEventListener (addEventListener reg n (some c) o₁) n (some c) o₂ =
      addEventListener reg n (some c) o₁ := by
    simp only [addEventListener]
    by_cases h : hasTriple reg e₁ = true
    · rw [if_pos h]
      have h2 : hasTriple reg e₂ = true := by
        rw [hasTriple, hfun]
        exact h
      rw [if_pos h2]
    · rw [if_neg h]
      have h2 : hasTriple (reg ++ [e₁]) e₂ = true := by
        rw [hasTriple, hfun, List.any_append]
        have : [e₁].any (sameTriple e₁) = true := by
          simp [sameTriple_self]
        rw [this, Bool.or_true]
      rw [if_pos h2]
  refine ⟨hdup, ?_⟩
  intro h0 hty
  have hadd : addEventListener reg n (some c) o₁ = reg ++ [e₁] := by
    simp only [addEventListener]
    rw [if_neg (by rw [h0]; exact Bool.noConfusion)]
  rw [hdup, hadd, dispatchEvent_invoked, countTriple_snapshot,
    if_pos (show e₁.eventName = ev.type from hty.symm), countTriple_append]
  have hz : countTriple reg e₁ = 0 :=
    countTriple_eq_zero.mpr (hasTriple_eq_false_iff.mp h0)
  have h1 : countTriple [e₁] e₁ = 1 := by
    simp [countTriple, List.countP_cons, sameTriple_self]
  rw [hz, h1]

/-- C3 witness: subscribing the same triple twice on an empty registry leaves
one entry and one invocation per publish. -/
theorem C3_idempotent_subscribe_witness :
    addEventListener (addEventListener [] "msg" (some 0) OptionsArg.absent) "msg" (some 0)
        OptionsArg.absent =
      addEventListener [] "msg" (some 0) OptionsArg.absent ∧
    countTriple
      (dispatchEvent behSilent
        (addEventListener (addEventListener [] "msg" (some 0) OptionsArg.absent) "msg"
          (some 0) OptionsArg.absent) evMsg).invoked
      ⟨"msg", 0, false, false, false⟩ = 1 :=
  ⟨(C3_idempotent_subscribe [] "msg" 0 OptionsArg.absent OptionsArg.absent behSilent evMsg
      rfl).1,
    (C3_idempotent_subscribe [] "msg" 0 OptionsArg.absent OptionsArg.absent behSilent evMsg
      rfl).2 (by decide) rfl⟩

/-- C4: a `once` entry is invoked exactly once by the dispatch that reaches
it, is removed before its invocation (so a re-entrant read of the registry
never observes it), is absent from the post-dispatch registry, is not invoked
by any later `publish`, and a re-subscription of its triple during its own
invocation is a fresh appended entry. -/
theorem C4_once_semantics (beh beh2 : Behavior) (reg : List ListenerEntry) (ev ev2 : Event)
    (e : ListenerEntry) (hwf : wfb reg = true) (hmem : e ∈ reg) (honce : e.once = true)
    (hname : e.eventName = ev.type) (hnoadd : noAdd beh) :
    countTriple (dispatchEvent beh reg ev).invoked e = 1 ∧
    countTriple (dispatchEvent beh reg ev).registry e = 0 ∧
    countTriple (dispatchEvent beh2 (dispatchEvent beh reg ev).registry ev2).invoked e = 0 ∧
    (∀ st : DispatchState, hasTriple (onceRemoved st e).reg e = false) ∧
    (∀ (reg2 : List ListenerEntry) (o : ListenerOptions), hasTriple reg2 e = false →
      o.capture = e.capture →
      addEventListener reg2 e.eventName (some e.callback) (OptionsArg.optsArg o) =
        reg2 ++ [⟨e.eventName, e.callback, o.capture, o.passive, o.once⟩]) := by
  have hreg0 : countTriple (dispatchEvent beh reg ev).registry e = 0 :=
    dispatchEvent_registry_once hnoadd honce hmem hname
  refine ⟨?_, hreg0, ?_, ?_, ?_⟩
  · rw [dispatchEvent_invoked, countTriple_snapshot, if_pos hname]
    exact wfb_countTriple_eq_one hwf hmem
  · rw [dispatchEvent_invoked, countTriple_snapshot]
    split
    · exact hreg0
    · rfl
  · intro st
    rw [onceRemoved_once honce]
    exact hasTriple_removeTriple_self ..
  · intro reg2 o h0 hoc
    simp only [addEventListener]
    have hfun : sameTriple ⟨e.eventName, e.callback, o.capture, o.passive, o.once⟩ =
        sameTriple e :=
      funext (sameTriple_congr rfl rfl hoc)
    have h2 : hasTriple reg2
        ⟨e.eventName, e.callback, (OptionsArg.optsArg o).toOptions.capture,
          (OptionsArg.optsArg o).toOptions.passive, (OptionsArg.optsArg o).toOptions.once⟩
        = false := by
      show hasTriple reg2 ⟨e.eventName, e.callback, o.capture, o.passive, o.once⟩ = false
      rw [hasTriple, hfun]
      exact h0
    rw [if_neg (by rw [h2]; exact Bool.noConfusion)]
    rfl

/-- C4 witness: a `once` listener on a singleton registry is invoked once by
the first publish and its entry is gone from the resulting registry. -/
theorem C4_once_semantics_witness :
    countTriple (dispatchEvent behSilent [entOnce] evMsg).invoked entOnce = 1 ∧
    countTriple (dispatchEvent behSilent [entOnce] evMsg).registry entOnce = 0 ∧
    countTriple
      (dispatchEvent behSilent (dispatchEvent behSilent [entOnce] evMsg).registry
        evMsg).invoked entOnce = 0 :=
  ⟨(C4_once_semantics behSilent behSilent [entOnce] evMsg evMsg entOnce (by decide)
      (by decide) rfl rfl (by intro c a h; simp [behSilent] at h)).1,
    (C4_once_semantics behSilent behSilent [entOnce] evMsg evMsg entOnce (by decide)
      (by decide) rfl rfl (by intro c a h; simp [behSilent] at h)).2.1,
    (C4_once_semantics behSilent behSilent [entOnce] evMsg evMsg entOnce (by decide)
      (by decide) rfl rfl (by intro c a h; simp [behSilent] at h)).2.2.1⟩

theorem countP_add_countP_not (p : ListenerEntry → Bool) (l : List ListenerEntry) :
    l.length = l.countP p + l.countP (fun x => !(p x)) := by
  induction l with
  | nil => rfl
  | cons y ys ih =>
    simp only [List.length_cons, List.countP_cons]
    cases p y <;> simp <;> omega

/-- C8: `unsubscribe` matching uses only `capture` from the options
(`passive`/`once` are ignored), an unmatched triple is a silent no-op leaving
the registry unchanged, non-matching entries are kept, and on a well-formed
registry at most one entry is removed. -/
theorem C8_unsubscribe_matching (reg : List ListenerEntry) (n : String) (c : Nat)
    (o o₁ o₂ : OptionsArg) :
    (o₁.toOptions.capture = o₂.toOptions.capture →
      removeEventListener reg n (some c) o₁ = removeEventListener reg n (some c) o₂) ∧
    (hasTriple reg ⟨n, c, o.toOptions.capture, false, false⟩ = false →
      removeEventListener reg n (some c) o = reg) ∧
    (∀ x ∈ reg, sameTriple ⟨n, c, o.toOptions.capture, false, false⟩ x = false →
      x ∈ removeEventListener reg n (some c) o) ∧
    (wfb reg = true → reg.length ≤ (removeEventListener reg n (some c) o).length + 1) := by
  refine ⟨?_, ?_, ?_, ?_⟩
  · intro h
    simp only [removeEventListener, removeTriple]
    rw [h]
  · intro h
    simp only [removeEventListener, removeTriple]
    apply List.filter_eq_self.mpr
    intro x hx
    rw [hasTriple_eq_false_iff.mp h x hx]
    rfl
  · intro x hx hst
    simp only [removeEventListener, removeTriple]
    exact List.mem_filter.mpr ⟨hx, by rw [hst]; rfl⟩
  · intro hw
    simp only [removeEventListener, removeTriple]
    have hsplit :=
      countP_add_countP_not
        (fun x => sameTriple ⟨n, c, o.toOptions.capture, false, false⟩ x) reg
    have hlen :
        (reg.filter (fun x => !(sameTriple ⟨n, c, o.toOptions.capture, false, false⟩ x))).length
          = reg.countP (fun x => !(sameTriple ⟨n, c, o.toOptions.capture, false, false⟩ x)) :=
      (List.countP_eq_length_filter _ _).symm
    have hle := wfb_countTriple_le_one hw ⟨n, c, o.toOptions.capture, false, false⟩
    rw [countTriple] at hle
    rw [hlen]
    omega

/-- C8 witness: unsubscribing a triple that is not registered leaves the
registry unchanged, and on a well-formed registry at most one entry is
removed. -/
theorem C8_unsubscribe_matching_witness :
    removeEventListener [entNP] "msg" (some 5) OptionsArg.absent = [entNP] ∧
    [entNP].length ≤ (removeEventListener [entNP] "msg" (some 5) OptionsArg.absent).length + 1 :=
  ⟨(C8_unsubscribe_matching [entNP] "msg" 5 OptionsArg.absent OptionsArg.absent
      OptionsArg.absent).2.1 (by decide),
    (C8_unsubscribe_matching [entNP] "msg" 5 OptionsArg.absent OptionsArg.absent
      OptionsArg.absent).2.2.2 (by decide)⟩

/-- C9: the exported `TypedEventTarget` is at runtime the host `EventTarget`
itself — each of its three operations is definitionally the host operation,
so the typing shim adds no runtime behavior. -/
theorem C9_shim_identity :
    TypedEventTarget.addEventListener = addEventListener ∧
    TypedEventTarget.removeEventListener = removeEventListener ∧
    TypedEventTarget.dispatchEvent = dispatchEvent :=
  ⟨rfl, rfl, rfl⟩

end EventTargetModel
